import Mathlib

/-!
Verification of the buffer-orchestration core of the DALI backend executor
(`src/dali_executor/io_buffer.h` and the `DaliExecutor` implementation).

The embedding models:
* `IOBuffer` — the reusable staging buffer (`Allocate`, `Clear`, `Reserve`,
  `Capacity`, `GetDescr`) over an abstract state `{capacity, filled}`;
* the executor input path (`IsNoCopy`, `ScheduleInputCopy`, `SetupInputs`,
  `Run`) and output path (`PutOutputs`), with pipeline interactions and copy
  tasks recorded as an explicit event trace;
* byte-level copy semantics (`applyTask` / `applyTasks`) used to verify that
  the scheduled fragment copies reassemble the logical concatenation.

Machine addresses are modelled as natural numbers; memory is a function from
addresses to bytes.  Contract violations (C `assert` / `ENFORCE`) surface as
`Except.error`.
-/

namespace DaliBackend

/-- Device kinds, mirroring `device_type_t` (CPU = host, GPU = accelerator). -/
inductive device_type_t where
  | CPU
  | GPU
deriving DecidableEq, Repr, Inhabited

/-- A contiguous memory region view: `{data, size, device, device_id}`,
mirroring `IBufferDescr`.  `data` is an abstract byte address. -/
structure IBufferDescr where
  data : Nat
  size : Nat
  device : device_type_t
  device_id : Int
deriving DecidableEq, Repr, Inhabited

/-- Tensor metadata: name, batch size (`meta.shape.num_samples()`),
element count (`meta.shape.num_elements()`) and element size
(`dali_type_size(meta.type)`). -/
structure IOMeta where
  name : String
  numSamples : Nat
  numElements : Nat
  typeSize : Nat
deriving DecidableEq, Repr, Inhabited

/-- An input descriptor `IDescr`: metadata plus an ordered list of buffer
fragments. -/
structure IDescr where
  meta : IOMeta
  buffers : List IBufferDescr
deriving DecidableEq, Repr, Inhabited

/-- Output descriptors have the same shape as input descriptors. -/
abbrev ODescr := IDescr

/-- The state of one `IOBuffer<Dev>`: `capacity` is `buffer_.size()` and
`filled` is `filled_`. -/
structure IOBufferState where
  capacity : Nat
  filled : Nat
deriving DecidableEq, Repr, Inhabited

namespace IOBuffer

/-- `IOBuffer::Allocate(size)`: enforce `filled_ + size <= buffer_.size()`,
return the pointer `buffer_.data() + filled_` (modelled as the offset
`filled`) and advance `filled_`.  On contract violation the state is
unchanged (the `ENFORCE` fires before any mutation). -/
def Allocate (b : IOBufferState) (size : Nat) : Except String Nat × IOBufferState :=
  if b.filled + size ≤ b.capacity then
    (Except.ok b.filled, { b with filled := b.filled + size })
  else
    (Except.error "Not enough memory reserved", b)

/-- `IOBuffer::Clear()`: reset `filled_` to 0; the allocation is kept. -/
def Clear (b : IOBufferState) : IOBufferState :=
  { b with filled := 0 }

/-- `IOBuffer::Reserve(size)`: if `size > buffer_.size()`, enforce
`filled_ == 0` and resize the backing storage to `size`; otherwise a no-op.
On contract violation the state is unchanged. -/
def Reserve (b : IOBufferState) (size : Nat) : Except String Unit × IOBufferState :=
  if b.capacity < size then
    if b.filled = 0 then
      (Except.ok (), { b with capacity := size })
    else
      (Except.error "Cannot reserve more memory for buffer that was already reserved.", b)
  else
    (Except.ok (), b)

/-- `IOBuffer::Capacity()`: the size of the backing storage. -/
def Capacity (b : IOBufferState) : Nat :=
  b.capacity

/-- `IOBuffer::GetDescr()`: descriptor `{buffer_.data(), filled_, Dev,
device_id_}`.  The buffer base address is modelled as 0 (offsets within the
staging buffer are what matter). -/
def GetDescr (dev : device_type_t) (devId : Int) (b : IOBufferState) : IBufferDescr :=
  { data := 0, size := b.filled, device := dev, device_id := devId }

/-- Modelled from the spec: the executor calls `buffer->resize(size)` on the
staging buffer, a method whose implementation is not part of the analyzed
source.  Per the spec it must "obtain/grow a Staging Buffer ... sized for the
sum of fragment lengths" so that the descriptor handed to the pipeline (whose
`size` field is the filled length) covers exactly `size` bytes: capacity
grows monotonically to at least `size`, and the filled length becomes
`size`. -/
def resize (b : IOBufferState) (size : Nat) : IOBufferState :=
  { capacity := max b.capacity size, filled := size }

end IOBuffer

end DaliBackend

namespace DaliBackend

/-- A copy task handed to the thread pool: `MemCopy(dstDevice, dstAddr,
srcDevice, srcAddr, size)`.  For input staging, `dstAddr` is an offset from
the staging buffer base (modelled at address 0). -/
structure CopyTask where
  dstDevice : device_type_t
  dstAddr : Nat
  srcDevice : device_type_t
  srcAddr : Nat
  size : Nat
deriving DecidableEq, Repr, Inhabited

/-- Observable events of one executor invocation, in program order. -/
inductive Event where
  | setInput (d : IDescr)
  | pipelineRun
  | pipelineOutput
  | pipelineReset
  | syncOutputStream
  | putOutput (dataPtr : Nat) (outIdx : Nat) (dev : device_type_t)
  | enqueueCopy (t : CopyTask)
  | execCopy (t : CopyTask)
deriving DecidableEq, Repr

/-- Executor state: the pipeline's fixed execution device id, the two keyed
staging-buffer pools (`cpu_buffers_`, `gpu_buffers_`, defaulting to an empty
`IOBuffer` on first access) and the thread pool's task queue (task plus the
`start immediately` flag passed to `AddWork`). -/
structure ExecState where
  deviceId : Int
  cpuBuffers : String → IOBufferState
  gpuBuffers : String → IOBufferState
  queue : List (CopyTask × Bool)

/-- Errors an invocation can surface: a contract violation (a C `assert` or
`ENFORCE` firing) or an error thrown by pipeline execution. -/
inductive RunError where
  | contractViolation (msg : String)
  | pipelineError
deriving DecidableEq, Repr

/-- External behaviour of the pipeline collaborator for one invocation:
whether `Run()` / `Output()` succeed, and the output metadata reported
afterwards. -/
structure OutputInfo where
  shape : List (List Int)
  dtype : Nat
  device : device_type_t
deriving DecidableEq, Repr, Inhabited

structure PipelineBehavior where
  runOk : Bool
  outputs : List OutputInfo

/-- `DaliExecutor::IsNoCopy`: a single fragment that is on the host or on
the pipeline's own device. -/
def IsNoCopy (devId : Int) (input : IDescr) : Bool :=
  match input.buffers with
  | [b] => b.device == device_type_t.CPU || b.device_id == devId
  | _ => false

/-- Sum of the byte sizes of a fragment list. -/
def sumSizes (bufs : List IBufferDescr) : Nat :=
  (bufs.map (fun b => b.size)).sum

/-- The input byte size `meta.shape.num_elements() * dali_type_size(type)`. -/
def inpSize (d : IDescr) : Nat :=
  d.meta.numElements * d.meta.typeSize

/-- The copy tasks built by the `AddWork` loop of `ScheduleInputCopy`:
one task per fragment, destination walking the staging buffer from offset
`off` by cumulative fragment sizes. -/
def inputCopyTasksFrom (stagingDev : device_type_t) (off : Nat) :
    List IBufferDescr → List CopyTask
  | [] => []
  | b :: rest =>
      { dstDevice := stagingDev, dstAddr := off, srcDevice := b.device,
        srcAddr := b.data, size := b.size } :: inputCopyTasksFrom stagingDev (off + b.size) rest

/-- `DaliExecutor::ScheduleInputCopy`: pick the staging pool by the first
fragment's device, size the staging buffer to the sum of fragment lengths,
enqueue one copy task per fragment (flag `true` = start immediately), and
return the replacement single-fragment descriptor. -/
def ScheduleInputCopy (st : ExecState) (input : IDescr) :
    Except RunError (IDescr × List CopyTask × ExecState) :=
  match input.buffers with
  | [] => Except.error (RunError.contractViolation "input.buffers.size() > 0")
  | b :: _ =>
    let key := input.meta.name ++ "_inp"
    let size := sumSizes input.buffers
    if b.device = device_type_t.CPU then
      let buf := IOBuffer.resize (st.cpuBuffers key) size
      let descr := IOBuffer.GetDescr device_type_t.CPU 0 buf
      let tasks := inputCopyTasksFrom device_type_t.CPU descr.data input.buffers
      Except.ok (⟨input.meta, [descr]⟩, tasks,
        { st with
            cpuBuffers := fun k => if k = key then buf else st.cpuBuffers k,
            queue := st.queue ++ tasks.map (fun t => (t, true)) })
    else
      let buf := IOBuffer.resize (st.gpuBuffers key) size
      let descr := IOBuffer.GetDescr device_type_t.GPU st.deviceId buf
      let tasks := inputCopyTasksFrom device_type_t.GPU descr.data input.buffers
      Except.ok (⟨input.meta, [descr]⟩, tasks,
        { st with
            gpuBuffers := fun k => if k = key then buf else st.gpuBuffers k,
            queue := st.queue ++ tasks.map (fun t => (t, true)) })

/-- The per-input body of the `SetupInputs` loop: zero-copy hand-off when
`IsNoCopy`, otherwise route through `ScheduleInputCopy`; in both branches
the loop asserts that the input byte size fits in the descriptor's first
fragment. -/
def processInput (st : ExecState) (inp : IDescr) :
    Except RunError (IDescr × List CopyTask × ExecState) :=
  if IsNoCopy st.deviceId inp then
    if inpSize inp ≤ (inp.buffers.headD default).size then
      Except.ok (inp, [], st)
    else
      Except.error (RunError.contractViolation "inp_size <= inp.buffers[0].size")
  else
    match ScheduleInputCopy st inp with
    | Except.ok (c, tasks, st') =>
        if inpSize inp ≤ (c.buffers.headD default).size then
          Except.ok (c, tasks, st')
        else
          Except.error (RunError.contractViolation "inp_size <= c_inputs.back().buffers[0].size")
    | Except.error e => Except.error e

/-- The `SetupInputs` loop over all inputs, building `c_inputs` and
recording one `enqueueCopy` event per scheduled task. -/
def processInputs (st : ExecState) :
    List IDescr → Except RunError (List IDescr × ExecState × List Event)
  | [] => Except.ok ([], st, [])
  | inp :: rest =>
    match processInput st inp with
    | Except.ok (c, tasks, st₁) =>
        match processInputs st₁ rest with
        | Except.ok (cs, st₂, tr) =>
            Except.ok (c :: cs, st₂, tasks.map Event.enqueueCopy ++ tr)
        | Except.error e => Except.error e
    | Except.error e => Except.error e

/-- `ThreadPool::RunAll()`: execute every queued task and clear the queue. -/
def RunAll (st : ExecState) : ExecState × List Event :=
  ({ st with queue := [] }, st.queue.map (fun q => Event.execCopy q.1))

/-- `DaliExecutor::SetupInputs`: assert a non-empty input list, assert that
all inputs share the first input's batch size, process every input, run the
input copies to completion, then register each contiguous input with the
pipeline. -/
def SetupInputs (st : ExecState) : List IDescr → Except RunError (ExecState × List Event)
  | [] => Except.error (RunError.contractViolation "!inputs.empty()")
  | first :: rest =>
    if (first :: rest).all (fun i => i.meta.numSamples == first.meta.numSamples) then
      match processInputs st (first :: rest) with
      | Except.ok (c_inputs, st₁, tr₁) =>
          let r := RunAll st₁
          Except.ok (r.1, tr₁ ++ r.2 ++ c_inputs.map Event.setInput)
      | Except.error e => Except.error e
    else
      Except.error (RunError.contractViolation "All inputs should have equal batch size.")

/-- `DaliExecutor::Run`: set up the inputs, execute the pipeline, and on a
pipeline failure reset the pipeline before re-raising; on success report the
per-output metadata. -/
def Run (st : ExecState) (pb : PipelineBehavior) (inputs : List IDescr) :
    Except RunError (List OutputInfo) × ExecState × List Event :=
  match SetupInputs st inputs with
  | Except.error e => (Except.error e, st, [])
  | Except.ok (st₁, tr₁) =>
    if pb.runOk then
      (Except.ok pb.outputs, st₁, tr₁ ++ [Event.pipelineRun, Event.pipelineOutput])
    else
      (Except.error RunError.pipelineError, st₁, tr₁ ++ [Event.pipelineRun, Event.pipelineReset])

/-- The copy tasks built by the deferred `AddWork` loop of `PutOutputs`:
one task per destination fragment, source walking the staging buffer from
offset `off` by cumulative fragment sizes. -/
def outputCopyTasksFrom (stagingDev : device_type_t) (off : Nat) :
    List IBufferDescr → List CopyTask
  | [] => []
  | b :: rest =>
      { dstDevice := b.device, dstAddr := b.data, srcDevice := stagingDev,
        srcAddr := off, size := b.size } :: outputCopyTasksFrom stagingDev (off + b.size) rest

/-- The per-slot loop of `DaliExecutor::PutOutputs` (`outDev i` models
`pipeline_.GetOutputDevice(i)`): a single-fragment destination is handed
directly to `PutOutput`; a fragmented destination goes through a staging
buffer keyed `name + "_out"` plus deferred copy tasks (flag `false`). -/
def putOutputsLoop (outDev : Nat → device_type_t) (st : ExecState) :
    List ODescr → Nat → ExecState × List Event
  | [], _ => (st, [])
  | o :: rest, idx =>
    match o.buffers with
    | [b] =>
        let r := putOutputsLoop outDev st rest (idx + 1)
        (r.1, Event.putOutput b.data idx b.device :: r.2)
    | bufs =>
        let size := sumSizes bufs
        let key := o.meta.name ++ "_out"
        if outDev idx = device_type_t.CPU then
          let buf := IOBuffer.resize (st.cpuBuffers key) size
          let descr := IOBuffer.GetDescr device_type_t.CPU 0 buf
          let tasks := outputCopyTasksFrom descr.device descr.data bufs
          let st₁ : ExecState :=
            { st with
                cpuBuffers := fun k => if k = key then buf else st.cpuBuffers k,
                queue := st.queue ++ tasks.map (fun t => (t, false)) }
          let r := putOutputsLoop outDev st₁ rest (idx + 1)
          (r.1, Event.putOutput descr.data idx descr.device ::
                  (tasks.map Event.enqueueCopy ++ r.2))
        else
          let buf := IOBuffer.resize (st.gpuBuffers key) size
          let descr := IOBuffer.GetDescr device_type_t.GPU st.deviceId buf
          let tasks := outputCopyTasksFrom descr.device descr.data bufs
          let st₁ : ExecState :=
            { st with
                gpuBuffers := fun k => if k = key then buf else st.gpuBuffers k,
                queue := st.queue ++ tasks.map (fun t => (t, false)) }
          let r := putOutputsLoop outDev st₁ rest (idx + 1)
          (r.1, Event.putOutput descr.data idx descr.device ::
                  (tasks.map Event.enqueueCopy ++ r.2))

/-- `DaliExecutor::PutOutputs`: handle every output slot, synchronize the
pipeline's output stream, then flush all deferred copy tasks. -/
def PutOutputs (outDev : Nat → device_type_t) (st : ExecState)
    (outputs : List ODescr) : ExecState × List Event :=
  let p := putOutputsLoop outDev st outputs 0
  let r := RunAll p.1
  (r.1, p.2 ++ Event.syncOutputStream :: r.2)

/-- Byte-level semantics of one copy task acting on a destination memory:
positions inside the task's destination range read from the source memory,
others are untouched. -/
def applyTask (src : Nat → Nat) (m : Nat → Nat) (t : CopyTask) : Nat → Nat :=
  fun p => if t.dstAddr ≤ p ∧ p < t.dstAddr + t.size then src (t.srcAddr + (p - t.dstAddr)) else m p

/-- Execute a list of copy tasks in order. -/
def applyTasks (src : Nat → Nat) (m : Nat → Nat) (ts : List CopyTask) : Nat → Nat :=
  ts.foldl (applyTask src) m

/-- Read `len` bytes at `off` from a memory. -/
def readRange (m : Nat → Nat) (off len : Nat) : List Nat :=
  (List.range len).map (fun i => m (off + i))

/-- The bytes of one fragment as read from the source memory. -/
def fragBytes (src : Nat → Nat) (b : IBufferDescr) : List Nat :=
  (List.range b.size).map (fun i => src (b.data + i))

/-- The logical concatenation of the fragments, in their original order. -/
def concatBytes (src : Nat → Nat) (bufs : List IBufferDescr) : List Nat :=
  (bufs.map (fragBytes src)).flatten

/-- Well-formedness of one invocation's inputs: a non-empty list, all batch
sizes equal to the first input's, and each input non-degenerate (at least
one fragment and a declared byte size fitting its fragments). -/
def ValidInputs (inputs : List IDescr) : Bool :=
  !inputs.isEmpty &&
  inputs.all (fun i => i.meta.numSamples == (inputs.headD default).meta.numSamples) &&
  inputs.all (fun i => !i.buffers.isEmpty && decide (inpSize i ≤ sumSizes i.buffers))

/-- Event classifier: is this the execution of a copy task? -/
def Event.isExecCopy : Event → Bool
  | Event.execCopy _ => true
  | _ => false

/-- Event classifier: is this a `PutOutput` call into the pipeline? -/
def Event.isPutOutput : Event → Bool
  | Event.putOutput _ _ _ => true
  | _ => false

/-- A sample executor state for witnesses: device 0, empty pools, empty
queue. -/
def sampleState : ExecState :=
  ⟨0, fun _ => ⟨0, 0⟩, fun _ => ⟨0, 0⟩, []⟩

end DaliBackend

namespace DaliBackend

/-- C7: `Allocate(size)` succeeds exactly when `filled + size ≤ capacity`,
returning the offset `filled` and advancing `filled` by `size`; it fails as a
contract violation exactly when `filled + size > capacity`; the capacity is
unchanged in either case. -/
theorem Allocate_spec_characterization (b : IOBufferState) (size : Nat) :
    ((IOBuffer.Allocate b size).1 = Except.ok b.filled ∧
      (IOBuffer.Allocate b size).2 =
        { capacity := b.capacity, filled := b.filled + size } ↔
      b.filled + size ≤ b.capacity) ∧
    ((∃ msg, (IOBuffer.Allocate b size).1 = Except.error msg ∧
        (IOBuffer.Allocate b size).2 = b) ↔
      b.capacity < b.filled + size) ∧
    (IOBuffer.Allocate b size).2.capacity = b.capacity := by
  unfold IOBuffer.Allocate
  by_cases h : b.filled + size ≤ b.capacity
  all_goals simp [h]
  all_goals omega

/-- C8: `Reserve(size)` is a no-op when `size ≤ capacity`; when
`size > capacity` it grows the capacity to `size` if `filled = 0` and fails
as a contract violation (leaving the buffer unchanged) if `filled > 0`;
capacity never decreases; and `Reserve` after `Clear()` always succeeds,
yielding a capacity at least `size` and at least the old capacity. -/
theorem Reserve_spec_characterization (b : IOBufferState) (size : Nat) :
    (size ≤ b.capacity → IOBuffer.Reserve b size = (Except.ok (), b)) ∧
    (b.capacity < size ∧ b.filled = 0 →
      IOBuffer.Reserve b size = (Except.ok (), { capacity := size, filled := b.filled })) ∧
    (b.capacity < size ∧ 0 < b.filled →
      ∃ msg, IOBuffer.Reserve b size = (Except.error msg, b)) ∧
    b.capacity ≤ (IOBuffer.Reserve b size).2.capacity ∧
    ((IOBuffer.Reserve (IOBuffer.Clear b) size).1 = Except.ok () ∧
      size ≤ (IOBuffer.Reserve (IOBuffer.Clear b) size).2.capacity ∧
      b.capacity ≤ (IOBuffer.Reserve (IOBuffer.Clear b) size).2.capacity) := by
  unfold IOBuffer.Reserve IOBuffer.Clear
  by_cases h : b.capacity < size
  · rcases Nat.eq_zero_or_pos b.filled with h0 | h0
    · simp [h, h0]
      omega
    · have hne : b.filled ≠ 0 := Nat.pos_iff_ne_zero.mp h0
      simp [h, hne]
      omega
  · simp [h]
    omega

theorem sumSizes_nil : sumSizes [] = 0 := rfl

theorem sumSizes_cons (b : IBufferDescr) (rest : List IBufferDescr) :
    sumSizes (b :: rest) = b.size + sumSizes rest := by
  simp [sumSizes]

theorem inputCopyTasksFrom_length (dev : device_type_t) (o : Nat)
    (bufs : List IBufferDescr) :
    (inputCopyTasksFrom dev o bufs).length = bufs.length := by
  induction bufs generalizing o with
  | nil => rfl
  | cons b rest ih => simp [inputCopyTasksFrom, ih]

theorem inputCopyTasksFrom_map_size (dev : device_type_t) (o : Nat)
    (bufs : List IBufferDescr) :
    (inputCopyTasksFrom dev o bufs).map (fun t => t.size) =
      bufs.map (fun b => b.size) := by
  induction bufs generalizing o with
  | nil => rfl
  | cons b rest ih => simp [inputCopyTasksFrom, ih]

theorem inputCopyTasksFrom_getD (dev : device_type_t) (bufs : List IBufferDescr) :
    ∀ (o i : Nat), i < bufs.length →
      (inputCopyTasksFrom dev o bufs).getD i default =
        { dstDevice := dev, dstAddr := o + sumSizes (bufs.take i),
          srcDevice := (bufs.getD i default).device,
          srcAddr := (bufs.getD i default).data,
          size := (bufs.getD i default).size } := by
  induction bufs with
  | nil => intro o i h; simp at h
  | cons b rest ih =>
    intro o i h
    cases i with
    | zero => simp [inputCopyTasksFrom, sumSizes]
    | succ i =>
      have hi : i < rest.length := by simpa using h
      have h2 := ih (o + b.size) i hi
      simp only [inputCopyTasksFrom, List.getD_cons_succ, List.take_succ_cons,
        sumSizes_cons]
      rw [h2]
      simp [Nat.add_assoc]

theorem inputCopyTasksFrom_dstDevice (dev : device_type_t) (o : Nat)
    (bufs : List IBufferDescr) :
    ∀ t ∈ inputCopyTasksFrom dev o bufs, t.dstDevice = dev := by
  induction bufs generalizing o with
  | nil => intro t ht; simp [inputCopyTasksFrom] at ht
  | cons b rest ih =>
    intro t ht
    simp only [inputCopyTasksFrom, List.mem_cons] at ht
    rcases ht with rfl | ht
    · rfl
    · exact ih (o + b.size) t ht

theorem inputCopyTasksFrom_bounds (dev : device_type_t)
    (bufs : List IBufferDescr) :
    ∀ (o : Nat), ∀ t ∈ inputCopyTasksFrom dev o bufs,
      o ≤ t.dstAddr ∧ t.dstAddr + t.size ≤ o + sumSizes bufs := by
  induction bufs with
  | nil => intro o t ht; simp [inputCopyTasksFrom] at ht
  | cons b rest ih =>
    intro o t ht
    simp only [inputCopyTasksFrom, List.mem_cons] at ht
    rcases ht with rfl | ht
    · refine ⟨Nat.le_refl _, ?_⟩
      simp only [sumSizes_cons]
      omega
    · have := ih (o + b.size) t ht
      simp only [sumSizes_cons]
      omega

/-- Characterization of `IsNoCopy` in the spec's words. -/
theorem IsNoCopy_iff (devId : Int) (inp : IDescr) :
    IsNoCopy devId inp = true ↔
      ∃ b, inp.buffers = [b] ∧
        (b.device = device_type_t.CPU ∨ b.device_id = devId) := by
  cases hb : inp.buffers with
  | nil => simp [IsNoCopy, hb]
  | cons b rest =>
    cases rest with
    | nil => simp [IsNoCopy, hb]
    | cons c rest₂ => simp [IsNoCopy, hb]

/-- `ScheduleInputCopy` branch equation: host-resident first fragment. -/
theorem ScheduleInputCopy_cpu (st : ExecState) (inp : IDescr)
    (b : IBufferDescr) (rest : List IBufferDescr) (hb : inp.buffers = b :: rest)
    (hdev : b.device = device_type_t.CPU) :
    ScheduleInputCopy st inp =
      Except.ok (⟨inp.meta, [⟨0, sumSizes inp.buffers, device_type_t.CPU, 0⟩]⟩,
        inputCopyTasksFrom device_type_t.CPU 0 inp.buffers,
        { st with
            cpuBuffers := fun k => if k = inp.meta.name ++ "_inp"
              then IOBuffer.resize (st.cpuBuffers (inp.meta.name ++ "_inp"))
                     (sumSizes inp.buffers)
              else st.cpuBuffers k,
            queue := st.queue ++
              (inputCopyTasksFrom device_type_t.CPU 0 inp.buffers).map
                (fun t => (t, true)) }) := by
  simp only [ScheduleInputCopy, hb, hdev, if_pos rfl]
  rw [← hb]
  rfl

/-- `ScheduleInputCopy` branch equation: accelerator-resident first
fragment. -/
theorem ScheduleInputCopy_gpu (st : ExecState) (inp : IDescr)
    (b : IBufferDescr) (rest : List IBufferDescr) (hb : inp.buffers = b :: rest)
    (hdev : b.device ≠ device_type_t.CPU) :
    ScheduleInputCopy st inp =
      Except.ok (⟨inp.meta, [⟨0, sumSizes inp.buffers, device_type_t.GPU, st.deviceId⟩]⟩,
        inputCopyTasksFrom device_type_t.GPU 0 inp.buffers,
        { st with
            gpuBuffers := fun k => if k = inp.meta.name ++ "_inp"
              then IOBuffer.resize (st.gpuBuffers (inp.meta.name ++ "_inp"))
                     (sumSizes inp.buffers)
              else st.gpuBuffers k,
            queue := st.queue ++
              (inputCopyTasksFrom device_type_t.GPU 0 inp.buffers).map
                (fun t => (t, true)) }) := by
  simp only [ScheduleInputCopy, hb, hdev, if_neg hdev]
  rw [← hb]
  rfl

theorem applyTasks_cons (src m : Nat → Nat) (t : CopyTask) (ts : List CopyTask) :
    applyTasks src m (t :: ts) = applyTasks src (applyTask src m t) ts := rfl

theorem applyTask_in (src m : Nat → Nat) (t : CopyTask) (p : Nat)
    (h : t.dstAddr ≤ p ∧ p < t.dstAddr + t.size) :
    applyTask src m t p = src (t.srcAddr + (p - t.dstAddr)) := if_pos h

theorem applyTask_out (src m : Nat → Nat) (t : CopyTask) (p : Nat)
    (h : ¬(t.dstAddr ≤ p ∧ p < t.dstAddr + t.size)) :
    applyTask src m t p = m p := if_neg h

/-- Positions below every task's destination range are untouched. -/
theorem applyTasks_below (src : Nat → Nat) (lo : Nat) :
    ∀ (ts : List CopyTask), (∀ t ∈ ts, lo ≤ t.dstAddr) →
      ∀ (m : Nat → Nat) (p : Nat), p < lo → applyTasks src m ts p = m p := by
  intro ts
  induction ts with
  | nil => intro _ m p _; rfl
  | cons t ts ih =>
    intro hts m p hp
    have h1 : lo ≤ t.dstAddr := hts t (List.mem_cons_self t ts)
    rw [applyTasks_cons,
      ih (fun u hu => hts u (List.mem_cons_of_mem _ hu)) (applyTask src m t) p hp]
    exact applyTask_out src m t p (by omega)

theorem readRange_add (m : Nat → Nat) (o a c : Nat) :
    readRange m o (a + c) = readRange m o a ++ readRange m (o + a) c := by
  unfold readRange
  rw [List.range_add, List.map_append, List.map_map]
  congr 1
  apply List.map_congr_left
  intro i _
  simp [Nat.add_assoc]

/-- Running the input-staging tasks in their enqueue order reassembles the
fragments contiguously: the staging range `[o, o + Σ sizes)` holds the
concatenation of the fragment bytes. -/
theorem applyTasks_inputCopy (dev : device_type_t) (src : Nat → Nat) :
    ∀ (bufs : List IBufferDescr) (o : Nat) (m : Nat → Nat),
      readRange (applyTasks src m (inputCopyTasksFrom dev o bufs)) o (sumSizes bufs) =
        concatBytes src bufs := by
  intro bufs
  induction bufs with
  | nil => intro o m; rfl
  | cons b rest ih =>
    intro o m
    simp only [inputCopyTasksFrom, sumSizes_cons, applyTasks_cons]
    rw [readRange_add]
    have hsecond := ih (o + b.size)
      (applyTask src m ⟨dev, o, b.device, b.data, b.size⟩)
    have hfirst : readRange (applyTasks src
        (applyTask src m ⟨dev, o, b.device, b.data, b.size⟩)
        (inputCopyTasksFrom dev (o + b.size) rest)) o b.size = fragBytes src b := by
      unfold readRange fragBytes
      apply List.map_congr_left
      intro i hi
      rw [List.mem_range] at hi
      rw [applyTasks_below src (o + b.size) _
        (fun u hu => (inputCopyTasksFrom_bounds dev rest (o + b.size) u hu).1)
        _ _ (by omega)]
      rw [applyTask_in src m ⟨dev, o, b.device, b.data, b.size⟩ (o + i)
        ⟨show o ≤ o + i by omega, show o + i < o + b.size by omega⟩]
      simp
    rw [hfirst, hsecond]
    simp [concatBytes]

/-- Two copy tasks with disjoint destination ranges (or equal tasks)
commute. -/
theorem applyTask_comm (src m : Nat → Nat) (x y : CopyTask)
    (h : x = y ∨ x.dstAddr + x.size ≤ y.dstAddr ∨ y.dstAddr + y.size ≤ x.dstAddr) :
    applyTask src (applyTask src m x) y = applyTask src (applyTask src m y) x := by
  rcases h with rfl | h
  · rfl
  · funext p
    unfold applyTask
    by_cases hx : x.dstAddr ≤ p ∧ p < x.dstAddr + x.size <;>
      by_cases hy : y.dstAddr ≤ p ∧ p < y.dstAddr + y.size
    · exfalso; omega
    · simp only [if_pos hx, if_neg hy]
    · simp only [if_pos hy, if_neg hx]
    · simp only [if_neg hx, if_neg hy]

/-- Any two of the scheduled input-staging tasks are equal or write to
disjoint ranges. -/
theorem inputCopyTasksFrom_pairwise (dev : device_type_t) :
    ∀ (bufs : List IBufferDescr) (o : Nat),
      ∀ x ∈ inputCopyTasksFrom dev o bufs, ∀ y ∈ inputCopyTasksFrom dev o bufs,
        x = y ∨ x.dstAddr + x.size ≤ y.dstAddr ∨ y.dstAddr + y.size ≤ x.dstAddr := by
  intro bufs
  induction bufs with
  | nil => intro o x hx; simp [inputCopyTasksFrom] at hx
  | cons b rest ih =>
    intro o x hx y hy
    simp only [inputCopyTasksFrom, List.mem_cons] at hx hy
    rcases hx with rfl | hx <;> rcases hy with rfl | hy
    · exact Or.inl rfl
    · have := (inputCopyTasksFrom_bounds dev rest (o + b.size) y hy).1
      right; left
      simpa using this
    · have := (inputCopyTasksFrom_bounds dev rest (o + b.size) x hx).1
      right; right
      simpa using this
    · exact ih (o + b.size) x hx y hy

/-- Executing pairwise-disjoint copy tasks is order-independent. -/
theorem applyTasks_perm (src : Nat → Nat) (ts₁ ts₂ : List CopyTask)
    (hp : List.Perm ts₁ ts₂)
    (hd : ∀ x ∈ ts₁, ∀ y ∈ ts₁,
      x = y ∨ x.dstAddr + x.size ≤ y.dstAddr ∨ y.dstAddr + y.size ≤ x.dstAddr)
    (m : Nat → Nat) :
    applyTasks src m ts₁ = applyTasks src m ts₂ := by
  unfold applyTasks
  exact hp.foldl_eq' (fun x hx y hy z => applyTask_comm src z x y (hd x hx y hy)) m

/-- `processInput` equation on the zero-copy branch. -/
theorem processInput_nocopy (st : ExecState) (inp : IDescr)
    (hnc : IsNoCopy st.deviceId inp = true)
    (hsz : inpSize inp ≤ (inp.buffers.headD default).size) :
    processInput st inp = Except.ok (inp, [], st) := by
  unfold processInput
  rw [if_pos hnc, if_pos hsz]

/-- `processInput` equation on the staging branch. -/
theorem processInput_staging (st : ExecState) (inp : IDescr)
    (hnc : IsNoCopy st.deviceId inp = false)
    (out : IDescr) (tasks : List CopyTask) (st' : ExecState)
    (hs : ScheduleInputCopy st inp = Except.ok (out, tasks, st'))
    (hsz : inpSize inp ≤ (out.buffers.headD default).size) :
    processInput st inp = Except.ok (out, tasks, st') := by
  unfold processInput
  rw [if_neg (by simp [hnc]), hs]
  exact if_pos hsz

/-- `processInput` succeeds on any well-formed input. -/
theorem processInput_ok (st : ExecState) (inp : IDescr)
    (h1 : inp.buffers ≠ []) (h2 : inpSize inp ≤ sumSizes inp.buffers) :
    ∃ out tasks st', processInput st inp = Except.ok (out, tasks, st') := by
  by_cases hnc : IsNoCopy st.deviceId inp = true
  · obtain ⟨b, hb, _⟩ := (IsNoCopy_iff st.deviceId inp).mp hnc
    have hsz : inpSize inp ≤ (inp.buffers.headD default).size := by
      rw [hb] at h2 ⊢
      simpa [sumSizes] using h2
    exact ⟨inp, [], st, processInput_nocopy st inp hnc hsz⟩
  · have hnc' : IsNoCopy st.deviceId inp = false := by simpa using hnc
    obtain ⟨b, rest, hb⟩ := List.exists_cons_of_ne_nil h1
    by_cases hdev : b.device = device_type_t.CPU
    · exact ⟨_, _, _, processInput_staging st inp hnc' _ _ _
        (ScheduleInputCopy_cpu st inp b rest hb hdev) (by simpa using h2)⟩
    · exact ⟨_, _, _, processInput_staging st inp hnc' _ _ _
        (ScheduleInputCopy_gpu st inp b rest hb hdev) (by simpa using h2)⟩

/-- The `SetupInputs` loop succeeds on well-formed inputs. -/
theorem processInputs_ok :
    ∀ (inputs : List IDescr),
      (∀ inp ∈ inputs, inp.buffers ≠ [] ∧ inpSize inp ≤ sumSizes inp.buffers) →
      ∀ (st : ExecState),
        ∃ cs st' tr, processInputs st inputs = Except.ok (cs, st', tr) := by
  intro inputs
  induction inputs with
  | nil => intro _ st; exact ⟨[], st, [], rfl⟩
  | cons inp rest ih =>
    intro h st
    obtain ⟨out, tasks, st₁, h1⟩ := processInput_ok st inp
      (h inp (List.mem_cons_self _ _)).1 (h inp (List.mem_cons_self _ _)).2
    obtain ⟨cs, st₂, tr, h2⟩ := ih (fun i hi => h i (List.mem_cons_of_mem _ hi)) st₁
    exact ⟨out :: cs, st₂, tasks.map Event.enqueueCopy ++ tr,
      by simp [processInputs, h1, h2]⟩

/-- `SetupInputs` succeeds on a valid invocation. -/
theorem SetupInputs_ok (st : ExecState) (inputs : List IDescr)
    (hv : ValidInputs inputs = true) :
    ∃ st₁ tr, SetupInputs st inputs = Except.ok (st₁, tr) := by
  unfold ValidInputs at hv
  rw [Bool.and_eq_true, Bool.and_eq_true] at hv
  obtain ⟨⟨hne, hbatch⟩, hwf⟩ := hv
  have hwf' : ∀ inp ∈ inputs, inp.buffers ≠ [] ∧ inpSize inp ≤ sumSizes inp.buffers := by
    intro inp hmem
    have := List.all_eq_true.mp hwf inp hmem
    rw [Bool.and_eq_true] at this
    refine ⟨?_, of_decide_eq_true this.2⟩
    intro hnil
    rw [hnil] at this
    simpa using this.1
  cases inputs with
  | nil => simp at hne
  | cons first rest =>
    obtain ⟨cs, st', tr, hp⟩ := processInputs_ok (first :: rest) hwf' st
    refine ⟨(RunAll st').1, tr ++ (RunAll st').2 ++ cs.map Event.setInput, ?_⟩
    simp only [SetupInputs]
    rw [if_pos (by simpa using hbatch), hp]

/-- A valid invocation with a healthy pipeline succeeds, from any starting
state. -/
theorem Run_ok (st : ExecState) (pb : PipelineBehavior) (inputs : List IDescr)
    (hv : ValidInputs inputs = true) (hok : pb.runOk = true) :
    (Run st pb inputs).1 = Except.ok pb.outputs := by
  obtain ⟨st₁, tr, h⟩ := SetupInputs_ok st inputs hv
  simp [Run, h, hok]

/-- Witness for C8 at a concrete buffer state. -/
theorem Reserve_spec_characterization_witness :
    (5 ≤ (⟨7, 3⟩ : IOBufferState).capacity →
      IOBuffer.Reserve ⟨7, 3⟩ 5 = (Except.ok (), ⟨7, 3⟩)) ∧
    ((⟨7, 3⟩ : IOBufferState).capacity < 5 ∧ (⟨7, 3⟩ : IOBufferState).filled = 0 →
      IOBuffer.Reserve ⟨7, 3⟩ 5 =
        (Except.ok (), { capacity := 5, filled := (⟨7, 3⟩ : IOBufferState).filled })) ∧
    ((⟨7, 3⟩ : IOBufferState).capacity < 5 ∧ 0 < (⟨7, 3⟩ : IOBufferState).filled →
      ∃ msg, IOBuffer.Reserve ⟨7, 3⟩ 5 = (Except.error msg, ⟨7, 3⟩)) ∧
    (⟨7, 3⟩ : IOBufferState).capacity ≤ (IOBuffer.Reserve ⟨7, 3⟩ 5).2.capacity ∧
    ((IOBuffer.Reserve (IOBuffer.Clear ⟨7, 3⟩) 5).1 = Except.ok () ∧
      5 ≤ (IOBuffer.Reserve (IOBuffer.Clear ⟨7, 3⟩) 5).2.capacity ∧
      (⟨7, 3⟩ : IOBufferState).capacity ≤ (IOBuffer.Reserve (IOBuffer.Clear ⟨7, 3⟩) 5).2.capacity) :=
  Reserve_spec_characterization ⟨7, 3⟩ 5

/-- C1: the `SetupInputs` loop body takes the zero-copy path (the original
descriptor is handed to the pipeline and no copy task is produced) exactly
when the descriptor has one fragment that is on the host or on the
pipeline's execution device. -/
theorem processInput_zero_copy_iff (st : ExecState) (inp : IDescr)
    (h1 : inp.buffers ≠ []) (h2 : inpSize inp ≤ sumSizes inp.buffers) :
    ∃ out tasks st', processInput st inp = Except.ok (out, tasks, st') ∧
      ((out = inp ∧ tasks = []) ↔
        ∃ b, inp.buffers = [b] ∧
          (b.device = device_type_t.CPU ∨ b.device_id = st.deviceId)) := by
  by_cases hnc : IsNoCopy st.deviceId inp = true
  · obtain ⟨b, hb, hcond⟩ := (IsNoCopy_iff st.deviceId inp).mp hnc
    have hsz : inpSize inp ≤ (inp.buffers.headD default).size := by
      rw [hb] at h2 ⊢
      simpa [sumSizes] using h2
    exact ⟨inp, [], st, processInput_nocopy st inp hnc hsz,
      iff_of_true ⟨rfl, rfl⟩ ⟨b, hb, hcond⟩⟩
  · have hnc' : IsNoCopy st.deviceId inp = false := by
      simpa using hnc
    have hrhs : ¬ ∃ b, inp.buffers = [b] ∧
        (b.device = device_type_t.CPU ∨ b.device_id = st.deviceId) := by
      rw [← IsNoCopy_iff st.deviceId inp]
      simp [hnc']
    obtain ⟨b, rest, hb⟩ := List.exists_cons_of_ne_nil h1
    by_cases hdev : b.device = device_type_t.CPU
    · have hs := ScheduleInputCopy_cpu st inp b rest hb hdev
      have hsz : inpSize inp ≤
          ((⟨inp.meta, [⟨0, sumSizes inp.buffers, device_type_t.CPU, 0⟩]⟩ :
            IDescr).buffers.headD default).size := by
        simpa using h2
      refine ⟨_, _, _, processInput_staging st inp hnc' _ _ _ hs hsz, ?_⟩
      refine iff_of_false (fun hzc => ?_) hrhs
      have ht := hzc.2
      rw [hb] at ht
      simp [inputCopyTasksFrom] at ht
    · have hs := ScheduleInputCopy_gpu st inp b rest hb hdev
      have hsz : inpSize inp ≤
          ((⟨inp.meta, [⟨0, sumSizes inp.buffers, device_type_t.GPU,
            st.deviceId⟩]⟩ : IDescr).buffers.headD default).size := by
        simpa using h2
      refine ⟨_, _, _, processInput_staging st inp hnc' _ _ _ hs hsz, ?_⟩
      refine iff_of_false (fun hzc => ?_) hrhs
      have ht := hzc.2
      rw [hb] at ht
      simp [inputCopyTasksFrom] at ht

/-- Witness for C1: a single host fragment takes the zero-copy path. -/
theorem processInput_zero_copy_iff_witness :
    ((⟨⟨"x", 1, 2, 1⟩, [⟨0, 2, device_type_t.CPU, 0⟩]⟩ : IDescr).buffers ≠ [] ∧
      inpSize ⟨⟨"x", 1, 2, 1⟩, [⟨0, 2, device_type_t.CPU, 0⟩]⟩ ≤
        sumSizes (⟨⟨"x", 1, 2, 1⟩, [⟨0, 2, device_type_t.CPU, 0⟩]⟩ : IDescr).buffers) ∧
    (∃ out tasks st',
      processInput sampleState ⟨⟨"x", 1, 2, 1⟩, [⟨0, 2, device_type_t.CPU, 0⟩]⟩ =
        Except.ok (out, tasks, st') ∧
      ((out = ⟨⟨"x", 1, 2, 1⟩, [⟨0, 2, device_type_t.CPU, 0⟩]⟩ ∧ tasks = []) ↔
        ∃ b, (⟨⟨"x", 1, 2, 1⟩, [⟨0, 2, device_type_t.CPU, 0⟩]⟩ : IDescr).buffers = [b] ∧
          (b.device = device_type_t.CPU ∨ b.device_id = sampleState.deviceId))) :=
  ⟨⟨by decide, by decide⟩,
    processInput_zero_copy_iff sampleState _ (by decide) (by decide)⟩

/-- C9: the staging buffer's device kind is chosen solely by the first
fragment's device: a host first fragment selects the host pool (the
accelerator pool is untouched), anything else selects the accelerator pool
(the host pool is untouched); the replacement descriptor and every copy
task target that device. -/
theorem ScheduleInputCopy_staging_device (st : ExecState) (inp : IDescr)
    (b : IBufferDescr) (rest : List IBufferDescr) (hb : inp.buffers = b :: rest) :
    ∃ out tasks st', ScheduleInputCopy st inp = Except.ok (out, tasks, st') ∧
      out.buffers.map (fun d => d.device) =
        [if b.device = device_type_t.CPU then device_type_t.CPU
         else device_type_t.GPU] ∧
      (∀ t ∈ tasks, t.dstDevice =
        (if b.device = device_type_t.CPU then device_type_t.CPU
         else device_type_t.GPU)) ∧
      (b.device = device_type_t.CPU → st'.gpuBuffers = st.gpuBuffers) ∧
      (b.device ≠ device_type_t.CPU → st'.cpuBuffers = st.cpuBuffers) := by
  by_cases hdev : b.device = device_type_t.CPU
  · refine ⟨_, _, _, ScheduleInputCopy_cpu st inp b rest hb hdev, ?_, ?_, ?_, ?_⟩
    · simp [hdev]
    · intro t ht
      rw [if_pos hdev]
      exact inputCopyTasksFrom_dstDevice device_type_t.CPU 0 inp.buffers t ht
    · intro _; rfl
    · intro hcontra; exact absurd hdev hcontra
  · refine ⟨_, _, _, ScheduleInputCopy_gpu st inp b rest hb hdev, ?_, ?_, ?_, ?_⟩
    · simp [hdev]
    · intro t ht
      rw [if_neg hdev]
      exact inputCopyTasksFrom_dstDevice device_type_t.GPU 0 inp.buffers t ht
    · intro hcpu; exact absurd hcpu hdev
    · intro _; rfl

/-- Witness for C9: a two-fragment host input stages in host memory. -/
theorem ScheduleInputCopy_staging_device_witness :
    (⟨⟨"y", 1, 3, 1⟩, [⟨0, 1, device_type_t.CPU, 0⟩, ⟨10, 2, device_type_t.CPU, 0⟩]⟩ :
        IDescr).buffers =
      ⟨0, 1, device_type_t.CPU, 0⟩ :: [⟨10, 2, device_type_t.CPU, 0⟩] ∧
    (∃ out tasks st',
      ScheduleInputCopy sampleState
          ⟨⟨"y", 1, 3, 1⟩, [⟨0, 1, device_type_t.CPU, 0⟩, ⟨10, 2, device_type_t.CPU, 0⟩]⟩ =
        Except.ok (out, tasks, st') ∧
      out.buffers.map (fun d => d.device) =
        [if (⟨0, 1, device_type_t.CPU, 0⟩ : IBufferDescr).device = device_type_t.CPU
         then device_type_t.CPU else device_type_t.GPU] ∧
      (∀ t ∈ tasks, t.dstDevice =
        (if (⟨0, 1, device_type_t.CPU, 0⟩ : IBufferDescr).device = device_type_t.CPU
         then device_type_t.CPU else device_type_t.GPU)) ∧
      ((⟨0, 1, device_type_t.CPU, 0⟩ : IBufferDescr).device = device_type_t.CPU →
        st'.gpuBuffers = sampleState.gpuBuffers) ∧
      ((⟨0, 1, device_type_t.CPU, 0⟩ : IBufferDescr).device ≠ device_type_t.CPU →
        st'.cpuBuffers = sampleState.cpuBuffers)) :=
  ⟨rfl, ScheduleInputCopy_staging_device sampleState _ _ _ rfl⟩

/-- C3: on the staging path the total of the enqueued copy-task sizes equals
the total of the fragment lengths, the replacement descriptor advertises
exactly that length, and the staging buffer's filled length after sizing
equals that same sum. -/
theorem ScheduleInputCopy_sizes (st : ExecState) (inp : IDescr)
    (h1 : inp.buffers ≠ []) :
    ∃ out tasks st', ScheduleInputCopy st inp = Except.ok (out, tasks, st') ∧
      (tasks.map (fun t => t.size)).sum = sumSizes inp.buffers ∧
      out.buffers.map (fun d => d.size) = [sumSizes inp.buffers] ∧
      (if (inp.buffers.headD default).device = device_type_t.CPU
        then st'.cpuBuffers (inp.meta.name ++ "_inp")
        else st'.gpuBuffers (inp.meta.name ++ "_inp")).filled =
        sumSizes inp.buffers := by
  obtain ⟨b, rest, hb⟩ := List.exists_cons_of_ne_nil h1
  by_cases hdev : b.device = device_type_t.CPU
  · refine ⟨_, _, _, ScheduleInputCopy_cpu st inp b rest hb hdev, ?_, ?_, ?_⟩
    · rw [inputCopyTasksFrom_map_size]
      rfl
    · rfl
    · rw [hb]
      simp [hdev, IOBuffer.resize]
  · refine ⟨_, _, _, ScheduleInputCopy_gpu st inp b rest hb hdev, ?_, ?_, ?_⟩
    · rw [inputCopyTasksFrom_map_size]
      rfl
    · rfl
    · rw [hb]
      simp [hdev, IOBuffer.resize]

/-- Witness for C3 on a two-fragment input. -/
theorem ScheduleInputCopy_sizes_witness :
    (⟨⟨"z", 1, 3, 1⟩, [⟨0, 1, device_type_t.GPU, 1⟩, ⟨10, 2, device_type_t.GPU, 1⟩]⟩ :
        IDescr).buffers ≠ [] ∧
    (∃ out tasks st',
      ScheduleInputCopy sampleState
          ⟨⟨"z", 1, 3, 1⟩, [⟨0, 1, device_type_t.GPU, 1⟩, ⟨10, 2, device_type_t.GPU, 1⟩]⟩ =
        Except.ok (out, tasks, st') ∧
      (tasks.map (fun t => t.size)).sum =
        sumSizes (⟨⟨"z", 1, 3, 1⟩,
          [⟨0, 1, device_type_t.GPU, 1⟩, ⟨10, 2, device_type_t.GPU, 1⟩]⟩ : IDescr).buffers ∧
      out.buffers.map (fun d => d.size) =
        [sumSizes (⟨⟨"z", 1, 3, 1⟩,
          [⟨0, 1, device_type_t.GPU, 1⟩, ⟨10, 2, device_type_t.GPU, 1⟩]⟩ : IDescr).buffers] ∧
      (if ((⟨⟨"z", 1, 3, 1⟩,
            [⟨0, 1, device_type_t.GPU, 1⟩, ⟨10, 2, device_type_t.GPU, 1⟩]⟩ :
            IDescr).buffers.headD default).device = device_type_t.CPU
        then st'.cpuBuffers ("z" ++ "_inp")
        else st'.gpuBuffers ("z" ++ "_inp")).filled =
        sumSizes (⟨⟨"z", 1, 3, 1⟩,
          [⟨0, 1, device_type_t.GPU, 1⟩, ⟨10, 2, device_type_t.GPU, 1⟩]⟩ : IDescr).buffers) :=
  ⟨by decide, ScheduleInputCopy_sizes sampleState _ (by decide)⟩

/-- C2: the staging path sizes the pool buffer keyed `name + "_inp"` to the
sum of the fragment lengths, enqueues exactly one copy task per fragment at
the fragment's cumulative offset, hands the pipeline a single-fragment
descriptor pointing at the staging buffer, and after the copies complete —
in any completion order — the staging range holds the concatenation of the
fragments in their original order. -/
theorem ScheduleInputCopy_staging_spec (st : ExecState) (inp : IDescr)
    (h1 : inp.buffers ≠ []) :
    ∃ out tasks st', ScheduleInputCopy st inp = Except.ok (out, tasks, st') ∧
      ((inp.buffers.headD default).device = device_type_t.CPU →
        (st'.cpuBuffers (inp.meta.name ++ "_inp")).filled = sumSizes inp.buffers ∧
        sumSizes inp.buffers ≤ (st'.cpuBuffers (inp.meta.name ++ "_inp")).capacity) ∧
      ((inp.buffers.headD default).device ≠ device_type_t.CPU →
        (st'.gpuBuffers (inp.meta.name ++ "_inp")).filled = sumSizes inp.buffers ∧
        sumSizes inp.buffers ≤ (st'.gpuBuffers (inp.meta.name ++ "_inp")).capacity) ∧
      tasks.length = inp.buffers.length ∧
      (∀ i, i < inp.buffers.length →
        (tasks.getD i default).dstAddr = sumSizes (inp.buffers.take i) ∧
        (tasks.getD i default).size = (inp.buffers.getD i default).size ∧
        (tasks.getD i default).srcAddr = (inp.buffers.getD i default).data ∧
        (tasks.getD i default).srcDevice = (inp.buffers.getD i default).device) ∧
      (∃ descr, out = ⟨inp.meta, [descr]⟩ ∧ descr.data = 0 ∧
        descr.size = sumSizes inp.buffers) ∧
      st'.queue = st.queue ++ tasks.map (fun t => (t, true)) ∧
      (∀ (src m₀ : Nat → Nat) (ts₂ : List CopyTask), List.Perm ts₂ tasks →
        readRange (applyTasks src m₀ ts₂) 0 (sumSizes inp.buffers) =
          concatBytes src inp.buffers) := by
  obtain ⟨b, rest, hb⟩ := List.exists_cons_of_ne_nil h1
  have hhead : inp.buffers.headD default = b := by rw [hb]; rfl
  by_cases hdev : b.device = device_type_t.CPU
  · refine ⟨_, _, _, ScheduleInputCopy_cpu st inp b rest hb hdev,
      ?_, ?_, ?_, ?_, ?_, ?_, ?_⟩
    · intro _
      constructor
      · simp [IOBuffer.resize]
      · simp [IOBuffer.resize]
    · intro hc
      rw [hhead] at hc
      exact absurd hdev hc
    · exact inputCopyTasksFrom_length device_type_t.CPU 0 inp.buffers
    · intro i hi
      rw [inputCopyTasksFrom_getD device_type_t.CPU inp.buffers 0 i hi]
      simp
    · exact ⟨⟨0, sumSizes inp.buffers, device_type_t.CPU, 0⟩, rfl, rfl, rfl⟩
    · rfl
    · intro src m₀ ts₂ hperm
      rw [applyTasks_perm src ts₂ (inputCopyTasksFrom device_type_t.CPU 0 inp.buffers)
        hperm (fun x hx y hy =>
          inputCopyTasksFrom_pairwise device_type_t.CPU inp.buffers 0
            x (hperm.subset hx) y (hperm.subset hy)) m₀]
      exact applyTasks_inputCopy device_type_t.CPU src inp.buffers 0 m₀
  · refine ⟨_, _, _, ScheduleInputCopy_gpu st inp b rest hb hdev,
      ?_, ?_, ?_, ?_, ?_, ?_, ?_⟩
    · intro hc
      rw [hhead] at hc
      exact absurd hc hdev
    · intro _
      constructor
      · simp [IOBuffer.resize]
      · simp [IOBuffer.resize]
    · exact inputCopyTasksFrom_length device_type_t.GPU 0 inp.buffers
    · intro i hi
      rw [inputCopyTasksFrom_getD device_type_t.GPU inp.buffers 0 i hi]
      simp
    · exact ⟨⟨0, sumSizes inp.buffers, device_type_t.GPU, st.deviceId⟩, rfl, rfl, rfl⟩
    · rfl
    · intro src m₀ ts₂ hperm
      rw [applyTasks_perm src ts₂ (inputCopyTasksFrom device_type_t.GPU 0 inp.buffers)
        hperm (fun x hx y hy =>
          inputCopyTasksFrom_pairwise device_type_t.GPU inp.buffers 0
            x (hperm.subset hx) y (hperm.subset hy)) m₀]
      exact applyTasks_inputCopy device_type_t.GPU src inp.buffers 0 m₀

/-- Witness for C2 on a three-fragment host input. -/
theorem ScheduleInputCopy_staging_spec_witness :
    (⟨⟨"w", 1, 6, 1⟩, [⟨10, 1, device_type_t.CPU, 0⟩, ⟨20, 2, device_type_t.CPU, 0⟩,
        ⟨30, 3, device_type_t.CPU, 0⟩]⟩ : IDescr).buffers ≠ [] ∧
    (∃ out tasks st',
      ScheduleInputCopy sampleState
          ⟨⟨"w", 1, 6, 1⟩, [⟨10, 1, device_type_t.CPU, 0⟩, ⟨20, 2, device_type_t.CPU, 0⟩,
            ⟨30, 3, device_type_t.CPU, 0⟩]⟩ =
        Except.ok (out, tasks, st') ∧
      (((⟨⟨"w", 1, 6, 1⟩, [⟨10, 1, device_type_t.CPU, 0⟩, ⟨20, 2, device_type_t.CPU, 0⟩,
            ⟨30, 3, device_type_t.CPU, 0⟩]⟩ : IDescr).buffers.headD default).device =
          device_type_t.CPU →
        (st'.cpuBuffers ("w" ++ "_inp")).filled =
          sumSizes (⟨⟨"w", 1, 6, 1⟩, [⟨10, 1, device_type_t.CPU, 0⟩,
            ⟨20, 2, device_type_t.CPU, 0⟩, ⟨30, 3, device_type_t.CPU, 0⟩]⟩ : IDescr).buffers ∧
        sumSizes (⟨⟨"w", 1, 6, 1⟩, [⟨10, 1, device_type_t.CPU, 0⟩,
            ⟨20, 2, device_type_t.CPU, 0⟩, ⟨30, 3, device_type_t.CPU, 0⟩]⟩ : IDescr).buffers ≤
          (st'.cpuBuffers ("w" ++ "_inp")).capacity) ∧
      (((⟨⟨"w", 1, 6, 1⟩, [⟨10, 1, device_type_t.CPU, 0⟩, ⟨20, 2, device_type_t.CPU, 0⟩,
            ⟨30, 3, device_type_t.CPU, 0⟩]⟩ : IDescr).buffers.headD default).device ≠
          device_type_t.CPU →
        (st'.gpuBuffers ("w" ++ "_inp")).filled =
          sumSizes (⟨⟨"w", 1, 6, 1⟩, [⟨10, 1, device_type_t.CPU, 0⟩,
            ⟨20, 2, device_type_t.CPU, 0⟩, ⟨30, 3, device_type_t.CPU, 0⟩]⟩ : IDescr).buffers ∧
        sumSizes (⟨⟨"w", 1, 6, 1⟩, [⟨10, 1, device_type_t.CPU, 0⟩,
            ⟨20, 2, device_type_t.CPU, 0⟩, ⟨30, 3, device_type_t.CPU, 0⟩]⟩ : IDescr).buffers ≤
          (st'.gpuBuffers ("w" ++ "_inp")).capacity) ∧
      tasks.length = (⟨⟨"w", 1, 6, 1⟩, [⟨10, 1, device_type_t.CPU, 0⟩,
        ⟨20, 2, device_type_t.CPU, 0⟩, ⟨30, 3, device_type_t.CPU, 0⟩]⟩ : IDescr).buffers.length ∧
      (∀ i, i < (⟨⟨"w", 1, 6, 1⟩, [⟨10, 1, device_type_t.CPU, 0⟩,
          ⟨20, 2, device_type_t.CPU, 0⟩, ⟨30, 3, device_type_t.CPU, 0⟩]⟩ :
          IDescr).buffers.length →
        (tasks.getD i default).dstAddr =
          sumSizes ((⟨⟨"w", 1, 6, 1⟩, [⟨10, 1, device_type_t.CPU, 0⟩,
            ⟨20, 2, device_type_t.CPU, 0⟩, ⟨30, 3, device_type_t.CPU, 0⟩]⟩ :
            IDescr).buffers.take i) ∧
        (tasks.getD i default).size =
          ((⟨⟨"w", 1, 6, 1⟩, [⟨10, 1, device_type_t.CPU, 0⟩, ⟨20, 2, device_type_t.CPU, 0⟩,
            ⟨30, 3, device_type_t.CPU, 0⟩]⟩ : IDescr).buffers.getD i default).size ∧
        (tasks.getD i default).srcAddr =
          ((⟨⟨"w", 1, 6, 1⟩, [⟨10, 1, device_type_t.CPU, 0⟩, ⟨20, 2, device_type_t.CPU, 0⟩,
            ⟨30, 3, device_type_t.CPU, 0⟩]⟩ : IDescr).buffers.getD i default).data ∧
        (tasks.getD i default).srcDevice =
          ((⟨⟨"w", 1, 6, 1⟩, [⟨10, 1, device_type_t.CPU, 0⟩, ⟨20, 2, device_type_t.CPU, 0⟩,
            ⟨30, 3, device_type_t.CPU, 0⟩]⟩ : IDescr).buffers.getD i default).device) ∧
      (∃ descr, out = ⟨⟨"w", 1, 6, 1⟩, [descr]⟩ ∧ descr.data = 0 ∧
        descr.size = sumSizes (⟨⟨"w", 1, 6, 1⟩, [⟨10, 1, device_type_t.CPU, 0⟩,
          ⟨20, 2, device_type_t.CPU, 0⟩, ⟨30, 3, device_type_t.CPU, 0⟩]⟩ : IDescr).buffers) ∧
      st'.queue = sampleState.queue ++ tasks.map (fun t => (t, true)) ∧
      (∀ (src m₀ : Nat → Nat) (ts₂ : List CopyTask), List.Perm ts₂ tasks →
        readRange (applyTasks src m₀ ts₂) 0
            (sumSizes (⟨⟨"w", 1, 6, 1⟩, [⟨10, 1, device_type_t.CPU, 0⟩,
              ⟨20, 2, device_type_t.CPU, 0⟩, ⟨30, 3, device_type_t.CPU, 0⟩]⟩ :
              IDescr).buffers) =
          concatBytes src (⟨⟨"w", 1, 6, 1⟩, [⟨10, 1, device_type_t.CPU, 0⟩,
            ⟨20, 2, device_type_t.CPU, 0⟩, ⟨30, 3, device_type_t.CPU, 0⟩]⟩ :
            IDescr).buffers)) :=
  ⟨by decide, ScheduleInputCopy_staging_spec sampleState _ (by decide)⟩

/-- C4: an invocation whose inputs disagree on the batch size is rejected
as a contract violation with the state untouched and an empty trace — no
copy task is enqueued and no pipeline call is made. -/
theorem Run_batch_mismatch_rejected (st : ExecState) (pb : PipelineBehavior)
    (inputs : List IDescr)
    (h : ∃ inp ∈ inputs,
      inp.meta.numSamples ≠ (inputs.headD default).meta.numSamples) :
    ∃ msg, Run st pb inputs =
      (Except.error (RunError.contractViolation msg), st, []) := by
  cases inputs with
  | nil => simp at h
  | cons first rest =>
    obtain ⟨inp, hmem, hne⟩ := h
    have hne' : inp.meta.numSamples ≠ first.meta.numSamples := by
      simpa using hne
    have hnall : ¬ ((first :: rest).all
        (fun i => i.meta.numSamples == first.meta.numSamples) = true) := by
      intro hall
      have := List.all_eq_true.mp hall inp hmem
      exact hne' (by simpa using this)
    refine ⟨"All inputs should have equal batch size.", ?_⟩
    unfold Run
    simp only [SetupInputs]
    rw [if_neg hnall]

/-- Witness for C4: two inputs with batch sizes 4 and 5. -/
theorem Run_batch_mismatch_rejected_witness :
    (∃ inp ∈ [(⟨⟨"a", 4, 4, 1⟩, [⟨0, 4, device_type_t.CPU, 0⟩]⟩ : IDescr),
        ⟨⟨"b", 5, 5, 1⟩, [⟨50, 5, device_type_t.CPU, 0⟩]⟩],
      inp.meta.numSamples ≠
        ([(⟨⟨"a", 4, 4, 1⟩, [⟨0, 4, device_type_t.CPU, 0⟩]⟩ : IDescr),
          ⟨⟨"b", 5, 5, 1⟩, [⟨50, 5, device_type_t.CPU, 0⟩]⟩].headD default).meta.numSamples) ∧
    (∃ msg, Run sampleState ⟨true, []⟩
        [⟨⟨"a", 4, 4, 1⟩, [⟨0, 4, device_type_t.CPU, 0⟩]⟩,
         ⟨⟨"b", 5, 5, 1⟩, [⟨50, 5, device_type_t.CPU, 0⟩]⟩] =
      (Except.error (RunError.contractViolation msg), sampleState, [])) :=
  ⟨by decide, Run_batch_mismatch_rejected sampleState ⟨true, []⟩ _ (by decide)⟩

/-- C10: the entry point requires a non-empty input list: an invocation
with zero input descriptors is a contract violation (empty trace, state
untouched), never a successful no-op. -/
theorem Run_empty_inputs_rejected (st : ExecState) (pb : PipelineBehavior) :
    Run st pb [] =
      (Except.error (RunError.contractViolation "!inputs.empty()"), st, []) ∧
    ∀ outs, (Run st pb []).1 ≠ Except.ok outs := by
  refine ⟨rfl, ?_⟩
  intro outs h
  exact Except.noConfusion h

/-- Witness for C10 at a concrete state and pipeline. -/
theorem Run_empty_inputs_rejected_witness :
    Run sampleState ⟨true, []⟩ [] =
      (Except.error (RunError.contractViolation "!inputs.empty()"), sampleState, []) ∧
    ∀ outs, (Run sampleState ⟨true, []⟩ []).1 ≠ Except.ok outs :=
  Run_empty_inputs_rejected sampleState ⟨true, []⟩

/-- C5: when pipeline execution fails, the pipeline is reset before the
error is propagated (the invocation's trace ends with the failed run
followed by the reset), the result carries no outputs, and the resulting
state completes any subsequent valid invocation with a healthy pipeline. -/
theorem Run_pipeline_failure_recovery (st : ExecState) (pb : PipelineBehavior)
    (inputs : List IDescr)
    (hv : ValidInputs inputs = true) (hf : pb.runOk = false) :
    ∃ st' tr₀,
      Run st pb inputs =
        (Except.error RunError.pipelineError, st',
          tr₀ ++ [Event.pipelineRun, Event.pipelineReset]) ∧
      (∀ pb₂ inputs₂, pb₂.runOk = true → ValidInputs inputs₂ = true →
        (Run st' pb₂ inputs₂).1 = Except.ok pb₂.outputs) := by
  obtain ⟨st₁, tr, h⟩ := SetupInputs_ok st inputs hv
  refine ⟨st₁, tr, ?_, ?_⟩
  · simp [Run, h, hf]
  · intro pb₂ inputs₂ hok₂ hv₂
    exact Run_ok st₁ pb₂ inputs₂ hv₂ hok₂

/-- Witness for C5: a failing pipeline on a valid single-input invocation. -/
theorem Run_pipeline_failure_recovery_witness :
    (ValidInputs [(⟨⟨"x", 1, 2, 1⟩, [⟨0, 2, device_type_t.CPU, 0⟩]⟩ : IDescr)] = true ∧
      (⟨false, []⟩ : PipelineBehavior).runOk = false) ∧
    (∃ st' tr₀,
      Run sampleState ⟨false, []⟩ [⟨⟨"x", 1, 2, 1⟩, [⟨0, 2, device_type_t.CPU, 0⟩]⟩] =
        (Except.error RunError.pipelineError, st',
          tr₀ ++ [Event.pipelineRun, Event.pipelineReset]) ∧
      (∀ pb₂ inputs₂, pb₂.runOk = true → ValidInputs inputs₂ = true →
        (Run st' pb₂ inputs₂).1 = Except.ok pb₂.outputs)) :=
  ⟨⟨by decide, by decide⟩,
    Run_pipeline_failure_recovery sampleState ⟨false, []⟩ _ (by decide) (by decide)⟩

/-- Every event recorded by the `PutOutputs` per-slot loop is a `PutOutput`
call or a deferred-task enqueue — never a task execution and never a stream
synchronization. -/
theorem putOutputsLoop_events (outDev : Nat → device_type_t) :
    ∀ (outs : List ODescr) (st : ExecState) (idx : Nat),
      ∀ e ∈ (putOutputsLoop outDev st outs idx).2,
        e.isExecCopy = false ∧ e ≠ Event.syncOutputStream := by
  intro outs
  induction outs with
  | nil =>
    intro st idx e he
    simp [putOutputsLoop] at he
  | cons o rest ih =>
    intro st idx e he
    cases hob : o.buffers with
    | nil =>
      by_cases hd : outDev idx = device_type_t.CPU
      · simp only [putOutputsLoop, hob, if_pos hd, List.mem_cons, List.mem_append,
          List.mem_map] at he
        rcases he with rfl | ⟨⟨t, _, rfl⟩ | hrec⟩
        · exact ⟨rfl, by simp⟩
        · exact ⟨rfl, by simp⟩
        · exact ih _ (idx + 1) e hrec
      · simp only [putOutputsLoop, hob, if_neg hd, List.mem_cons, List.mem_append,
          List.mem_map] at he
        rcases he with rfl | ⟨⟨t, _, rfl⟩ | hrec⟩
        · exact ⟨rfl, by simp⟩
        · exact ⟨rfl, by simp⟩
        · exact ih _ (idx + 1) e hrec
    | cons b bs =>
      cases bs with
      | nil =>
        simp only [putOutputsLoop, hob, List.mem_cons] at he
        rcases he with rfl | he₂
        · exact ⟨rfl, by simp⟩
        · exact ih _ (idx + 1) e he₂
      | cons c cs =>
        by_cases hd : outDev idx = device_type_t.CPU
        · simp only [putOutputsLoop, hob, if_pos hd, List.mem_cons, List.mem_append,
            List.mem_map] at he
          rcases he with rfl | ⟨⟨t, _, rfl⟩ | hrec⟩
          · exact ⟨rfl, by simp⟩
          · exact ⟨rfl, by simp⟩
          · exact ih _ (idx + 1) e hrec
        · simp only [putOutputsLoop, hob, if_neg hd, List.mem_cons, List.mem_append,
            List.mem_map] at he
          rcases he with rfl | ⟨⟨t, _, rfl⟩ | hrec⟩
          · exact ⟨rfl, by simp⟩
          · exact ⟨rfl, by simp⟩
          · exact ih _ (idx + 1) e hrec

/-- C6: the output-stream synchronization happens after every output slot
has been handled (all `PutOutput` calls and enqueues are in the trace
segment before it, which contains no copy execution) and before any
deferred copy task runs (all task executions follow it); `PutOutputs`
returns only after flushing every pending copy task (its final queue is
empty and the post-synchronization segment executes exactly the pending
queue). -/
theorem PutOutputs_sync_ordering (outDev : Nat → device_type_t) (st : ExecState)
    (outputs : List ODescr) :
    ∃ pre q,
      PutOutputs outDev st outputs =
        ({ (putOutputsLoop outDev st outputs 0).1 with queue := [] },
          pre ++ Event.syncOutputStream :: q.map (fun t => Event.execCopy t.1)) ∧
      pre = (putOutputsLoop outDev st outputs 0).2 ∧
      q = (putOutputsLoop outDev st outputs 0).1.queue ∧
      (∀ e ∈ pre, e.isExecCopy = false ∧ e ≠ Event.syncOutputStream) ∧
      (∀ e ∈ q.map (fun t => Event.execCopy t.1),
        e.isPutOutput = false ∧ e ≠ Event.syncOutputStream) ∧
      (PutOutputs outDev st outputs).1.queue = [] := by
  refine ⟨(putOutputsLoop outDev st outputs 0).2,
    (putOutputsLoop outDev st outputs 0).1.queue, rfl, rfl, rfl, ?_, ?_, rfl⟩
  · exact putOutputsLoop_events outDev outputs st 0
  · intro e he
    obtain ⟨t, _, rfl⟩ := List.mem_map.mp he
    exact ⟨rfl, by simp⟩

end DaliBackend
